import Mathlib

/-!
# Literature Navigator — verification of the search/pagination logic

A shallow embedding of the "literature" search-and-paginate logic of the
report-viewer widget: the functions `searchLiterature`, `findNextLiterature`,
`findPrevLiterature`, `nextLinesLiterature`, the `toggleLiterature` document
loading, and the page-size input handler.

JavaScript string primitives (`trim`, `toLowerCase`, `includes`,
`split('\n')`) are modelled by structural Lean functions on `List Char`
(ASCII case mapping, whitespace = space/tab/CR/LF), so that every
operation is executable by the kernel on concrete inputs.

State mapping (JS component state -> `NavState` fields):
* `loadedReports[literatureFile]` -> `document : Option String`
  (absent file -> `none`); the JS presence check
  `!literatureFile || !loadedReports[literatureFile]` is truthiness based,
  so the empty string content also fails it.
* `literatureSearchTerm` -> `searchTerm`.
* `literatureNumLines` -> `numLines : Int` (stored unclamped).
* `literatureFoundLine` -> `foundLine : Option Nat` (1-indexed anchor;
  JS `null` -> `none`; the value `0` would be falsy in JS, which the
  embedding mirrors by treating `some 0` like `none` at every truthiness
  test).  The 0-based cursor of the spec is `foundLine - 1`.
* `literatureDisplayContent` -> `displayContent`.
-/

namespace LitNav

/-- Model of JS `String.prototype.trim` on the character list: drop leading
whitespace, then drop trailing whitespace. -/
def trimChars (l : List Char) : List Char :=
  List.rdropWhile Char.isWhitespace (l.dropWhile Char.isWhitespace)

/-- JS `s.trim()`. -/
def jsTrim (s : String) : String := String.mk (trimChars s.toList)

/-- JS `s.toLowerCase()` (ASCII letters, via `Char.toLower`). -/
def jsToLower (s : String) : String := String.mk (s.toList.map Char.toLower)

/-- Does `pat` occur at the head of the second list? -/
def leadEq : List Char → List Char → Bool
  | [], _ => true
  | _ :: _, [] => false
  | a :: as, b :: bs => a = b && leadEq as bs

/-- Does `pat` occur as a contiguous run anywhere in the list? -/
def subChars (pat : List Char) : List Char → Bool
  | [] => pat.isEmpty
  | b :: bs => leadEq pat (b :: bs) || subChars pat bs

/-- Model of JS `s.includes(pat)`: substring containment. -/
def strContains (s pat : String) : Bool := subChars pat.toList s.toList

/-- The pattern actually searched for: `term.toLowerCase().trim()`
(variable `searchLower` in the source). -/
def searchKey (term : String) : String := jsTrim (jsToLower term)

/-- One line test: `lines[i].toLowerCase().includes(searchLower)`. -/
def lineHasTerm (term line : String) : Bool := strContains (jsToLower line) (searchKey term)

/-- Model of JS `content.split('\n')` on character lists. -/
def splitNl : List Char → List (List Char)
  | [] => [[]]
  | c :: rest =>
    let r := splitNl rest
    if c = '\n' then [] :: r
    else
      match r with
      | [] => [[c]]
      | h :: t => (c :: h) :: t

/-- The line array of the document: JS `content.split('\n')`. -/
def docLines (content : String) : List String := (splitNl content.toList).map String.mk

/-- Failure kinds, one per distinct alert branch of the source. -/
inductive NavError
  | NoDocument
  | EmptyTerm
  | NotFound
  | NoCursor
  | EndOfText
deriving DecidableEq, Repr

/-- State of the navigator (see the module docstring for the field mapping). -/
structure NavState where
  document : Option String
  searchTerm : String
  numLines : Int
  foundLine : Option Nat
  displayContent : Option String
deriving DecidableEq, Repr

/-- The initial component state (`useState` defaults: no file, empty term,
500 lines, no found line, no display content). -/
def initNav : NavState :=
  { document := none, searchTerm := "", numLines := 500
    foundLine := none, displayContent := none }

/-- The clamp `Math.max(1, Math.min(5000, literatureNumLines))`, as the `Nat` used for
slicing. -/
def pageSizeNat (s : NavState) : Nat := (max 1 (min 5000 s.numLines)).toNat

/-- The slice `lines.slice(start, start + n)` before joining. -/
def windowLines (lines : List String) (start n : Nat) : List String :=
  (lines.drop start).take n

/-- The joined window `lines.slice(start, start + n).join(newline)`. -/
def windowText (lines : List String) (start n : Nat) : String :=
  String.intercalate "\n" (windowLines lines start n)

/-- The forward scan loop, structured over the number of remaining
iterations so it computes by structural recursion. -/
def scanForwardFuel (p : Nat → Bool) : Nat → Nat → Option Nat
  | 0, _ => none
  | fuel + 1, i => if p i then some i else scanForwardFuel p fuel (i + 1)

/-- The forward scan loop `for (let i = start; i < len; i++) if (p i) return i`:
the loop runs `len - start` times. -/
def scanForward (p : Nat → Bool) (len i : Nat) : Option Nat :=
  scanForwardFuel p (len - i) i

/-- The backward scan loop `for (let i = n; i >= 0; i--) if (p i) return i`,
already restricted to a non-negative start. -/
def scanBack (p : Nat → Bool) : Nat → Option Nat
  | 0 => if p 0 then some 0 else none
  | i + 1 => if p (i + 1) then some (i + 1) else scanBack p i

/-- The backward scan from a possibly negative start index: an empty range
when `start < 0`. -/
def scanBackInt (p : Nat → Bool) (start : Int) : Option Nat :=
  if start < 0 then none else scanBack p start.toNat

/-- Operation `searchLiterature(startFromLine)`: forward search from `startFromLine`,
returning the found 0-based index or a failure, together with the updated
state.  The two distinct "not found" alert messages (`startFromLine === 0`
versus later starts) are the same failure kind `NotFound`. -/
def searchLiterature (s : NavState) (startFromLine : Nat) :
    Except NavError Nat × NavState :=
  match s.document with
  | none => (.error .NoDocument, s)
  | some content =>
    if content = "" then (.error .NoDocument, s)
    else if jsTrim s.searchTerm = "" then (.error .EmptyTerm, s)
    else
      let lines := docLines content
      match scanForward (fun i => lineHasTerm s.searchTerm (lines.getD i "")) lines.length
          startFromLine with
      | none => (.error .NotFound, s)
      | some i =>
        let numLines := pageSizeNat s
        (.ok i, { s with foundLine := some (i + 1),
                         displayContent := some (windowText lines i numLines) })

/-- Operation `findNextLiterature()`: forward search from the stored (1-indexed) found
line, or from 0 when it is unset (or 0, which is falsy in JS). -/
def findNextLiterature (s : NavState) : Except NavError Nat × NavState :=
  match s.foundLine with
  | none => searchLiterature s 0
  | some fl => if fl = 0 then searchLiterature s 0 else searchLiterature s fl

/-- Operation `findPrevLiterature()`: backward search starting at
`literatureFoundLine - 2` (i.e. cursor − 1) when the found line is set, at
the last line otherwise. -/
def findPrevLiterature (s : NavState) : Except NavError Nat × NavState :=
  match s.document with
  | none => (.error .NoDocument, s)
  | some content =>
    if content = "" then (.error .NoDocument, s)
    else if jsTrim s.searchTerm = "" then (.error .EmptyTerm, s)
    else
      let lines := docLines content
      let startLine : Int :=
        match s.foundLine with
        | none => (lines.length : Int) - 1
        | some fl => if fl = 0 then (lines.length : Int) - 1 else (fl : Int) - 2
      match scanBackInt (fun i => lineHasTerm s.searchTerm (lines.getD i "")) startLine with
      | none => (.error .NotFound, s)
      | some i =>
        let numLines := pageSizeNat s
        (.ok i, { s with foundLine := some (i + 1),
                         displayContent := some (windowText lines i numLines) })

/-- Operation `nextLinesLiterature()`: advance the window by one page width,
`newStartLine = (literatureFoundLine - 1) + numLines`. -/
def nextLinesLiterature (s : NavState) : Except NavError Nat × NavState :=
  match s.document with
  | none => (.error .NoDocument, s)
  | some content =>
    if content = "" then (.error .NoDocument, s)
    else
      match s.foundLine with
      | none => (.error .NoCursor, s)
      | some fl =>
        if fl = 0 then (.error .NoCursor, s)
        else
          let lines := docLines content
          let numLines := pageSizeNat s
          let newStartLine := (fl - 1) + numLines
          if newStartLine ≥ lines.length then (.error .EndOfText, s)
          else
            (.ok newStartLine, { s with foundLine := some (newStartLine + 1),
                                        displayContent := some (windowText lines newStartLine numLines) })

/-- Selecting a file as the literature document (`toggleLiterature` set
branch): stores the content, clears the found line, display content and the
search term. -/
def loadDocument (s : NavState) (text : String) : NavState :=
  { s with document := some text, foundLine := none, displayContent := none,
           searchTerm := "" }

/-- The search-term input `onChange` handler. -/
def setSearchTerm (s : NavState) (t : String) : NavState :=
  { s with searchTerm := t }

/-- The page-size input `onChange` handler:
`setLiteratureNumLines(parseInt(v) || 500)`.  `none` models a `NaN` parse;
`0` is falsy in JS, so it also stores the default 500.  No clamping happens
here. -/
def setPageSize (s : NavState) (n : Option Int) : NavState :=
  { s with numLines := match n with
    | none => 500
    | some v => if v = 0 then 500 else v }

/-- The operations a UI session can perform on the navigator state. -/
inductive NavOp
  | load (text : String)
  | setTerm (t : String)
  | setSize (n : Option Int)
  | searchFwd (fromLine : Nat)
  | findNext
  | searchBack
  | nextPage
deriving Repr

/-- The state transition of one operation. -/
def navStep (op : NavOp) (s : NavState) : NavState :=
  match op with
  | .load t => loadDocument s t
  | .setTerm t => setSearchTerm s t
  | .setSize n => setPageSize s n
  | .searchFwd f => (searchLiterature s f).2
  | .findNext => (findNextLiterature s).2
  | .searchBack => (findPrevLiterature s).2
  | .nextPage => (nextLinesLiterature s).2

/-- Run a sequence of operations. -/
def navRun (ops : List NavOp) (s : NavState) : NavState :=
  ops.foldl (fun s op => navStep op s) s

/-- The cursor invariant: whenever the document is present and the found
line is set (JS-truthy), the 0-based cursor `foundLine - 1` is within the
line array. -/
def cursorOk (s : NavState) : Bool :=
  match s.document, s.foundLine with
  | some content, some fl =>
    if fl = 0 then true else decide (fl - 1 < (docLines content).length)
  | _, _ => true

/-- The state transition of one `nextPage` call (for iterated pagination). -/
def nextStep (s : NavState) : NavState := (nextLinesLiterature s).2

/-- The 0-based cursor of the spec: set iff `foundLine` is JS-truthy. -/
def navCursor (s : NavState) : Option Nat :=
  match s.foundLine with
  | some (k + 1) => some k
  | _ => none

/-- The wording the spec uses for a match: "a line whose lowercase form contains the
lowercase term".  It coincides with the test in the code `lineHasTerm` whenever
the term carries no surrounding whitespace (`lineHasTerm_eq_claimMatch`). -/
def claimMatch (term line : String) : Bool :=
  strContains (jsToLower line) (jsToLower term)

/-- Concrete state used by witnesses: the sample document of the spec, term
`"beta"`, page size 2, nothing found yet. -/
def stSample : NavState :=
  { document := some "alpha\nbeta\ngamma\nbeta again", searchTerm := "beta"
    numLines := 2, foundLine := none, displayContent := none }

/-- Concrete state used by witnesses: a three line document, term `"gamma"`,
page size 10, anchored at line index 2 (stored 1-indexed as 3). -/
def stThree : NavState :=
  { document := some "alpha\nbeta\ngamma", searchTerm := "gamma"
    numLines := 10, foundLine := some 3, displayContent := none }

/-- Concrete state used for iterated pagination: three lines, page size 1,
anchored at line index 0 (stored as 1). -/
def stPages : NavState :=
  { document := some "a\nb\nc", searchTerm := "a"
    numLines := 1, foundLine := some 1, displayContent := none }

/-- Concrete state with a whitespace-only search term. -/
def stBlankTerm : NavState :=
  { document := some "a\nb", searchTerm := "  "
    numLines := 500, foundLine := none, displayContent := none }

/-! ## Properties of the scan loops -/

theorem scanForwardFuel_some {p : Nat → Bool} :
    ∀ {fuel i j : Nat}, scanForwardFuel p fuel i = some j →
      i ≤ j ∧ j < i + fuel ∧ p j = true ∧ ∀ k, i ≤ k → k < j → p k = false := by
  intro fuel
  induction fuel with
  | zero => intro i j h; simp [scanForwardFuel] at h
  | succ n ih =>
    intro i j h
    rw [scanForwardFuel] at h
    by_cases hp : p i = true
    · rw [if_pos hp] at h
      injection h with h
      subst h
      exact ⟨Nat.le_refl _, by omega, hp, fun k hk1 hk2 => by omega⟩
    · rw [if_neg hp] at h
      obtain ⟨h1, h2, h3, h4⟩ := ih h
      refine ⟨by omega, by omega, h3, fun k hk1 hk2 => ?_⟩
      rcases Nat.eq_or_lt_of_le hk1 with rfl | hlt
      · simpa using hp
      · exact h4 k (by omega) hk2

theorem scanForwardFuel_eq_none {p : Nat → Bool} :
    ∀ {fuel i : Nat}, (∀ k, i ≤ k → k < i + fuel → p k = false) →
      scanForwardFuel p fuel i = none := by
  intro fuel
  induction fuel with
  | zero => intro i _; rfl
  | succ n ih =>
    intro i h
    rw [scanForwardFuel, if_neg (by simp [h i (Nat.le_refl _) (by omega)])]
    exact ih fun k hk1 hk2 => h k (by omega) (by omega)

theorem scanForwardFuel_eq_some {p : Nat → Bool} :
    ∀ {fuel i j : Nat}, i ≤ j → j < i + fuel → p j = true →
      (∀ k, i ≤ k → k < j → p k = false) → scanForwardFuel p fuel i = some j := by
  intro fuel
  induction fuel with
  | zero => intro i j h1 h2; omega
  | succ n ih =>
    intro i j h1 h2 h3 h4
    rw [scanForwardFuel]
    rcases Nat.eq_or_lt_of_le h1 with rfl | hlt
    · rw [if_pos h3]
    · rw [if_neg (by simp [h4 i (Nat.le_refl _) hlt])]
      exact ih (by omega) (by omega) h3 fun k hk1 hk2 => h4 k (by omega) hk2

theorem scanForward_some {p : Nat → Bool} {len i j : Nat}
    (h : scanForward p len i = some j) :
    i ≤ j ∧ j < len ∧ p j = true ∧ ∀ k, i ≤ k → k < j → p k = false := by
  obtain ⟨h1, h2, h3, h4⟩ := scanForwardFuel_some h
  exact ⟨h1, by omega, h3, h4⟩

theorem scanForward_eq_none {p : Nat → Bool} {len i : Nat}
    (h : ∀ k, i ≤ k → k < len → p k = false) : scanForward p len i = none :=
  scanForwardFuel_eq_none fun k hk1 hk2 => h k hk1 (by omega)

theorem scanForward_eq_some {p : Nat → Bool} {len i j : Nat}
    (h1 : i ≤ j) (h2 : j < len) (h3 : p j = true)
    (h4 : ∀ k, i ≤ k → k < j → p k = false) : scanForward p len i = some j :=
  scanForwardFuel_eq_some h1 (by omega) h3 h4

theorem scanBack_some {p : Nat → Bool} :
    ∀ {n j : Nat}, scanBack p n = some j →
      j ≤ n ∧ p j = true ∧ ∀ k, j < k → k ≤ n → p k = false := by
  intro n
  induction n with
  | zero =>
    intro j h
    rw [scanBack] at h
    by_cases hp : p 0 = true
    · rw [if_pos hp] at h
      injection h with h
      subst h
      exact ⟨Nat.le_refl _, hp, fun k hk1 hk2 => by omega⟩
    · rw [if_neg hp] at h
      exact absurd h (by simp)
  | succ n ih =>
    intro j h
    rw [scanBack] at h
    by_cases hp : p (n + 1) = true
    · rw [if_pos hp] at h
      injection h with h
      subst h
      exact ⟨Nat.le_refl _, hp, fun k hk1 hk2 => by omega⟩
    · rw [if_neg hp] at h
      obtain ⟨h1, h2, h3⟩ := ih h
      refine ⟨by omega, h2, fun k hk1 hk2 => ?_⟩
      rcases Nat.eq_or_lt_of_le hk2 with rfl | hlt
      · simpa using hp
      · exact h3 k hk1 (by omega)

theorem scanBack_eq_none {p : Nat → Bool} :
    ∀ {n : Nat}, (∀ k, k ≤ n → p k = false) → scanBack p n = none := by
  intro n
  induction n with
  | zero => intro h; rw [scanBack, if_neg (by simp [h 0 (Nat.le_refl _)])]
  | succ n ih =>
    intro h
    rw [scanBack, if_neg (by simp [h (n + 1) (Nat.le_refl _)])]
    exact ih fun k hk => h k (by omega)

theorem scanBack_eq_some {p : Nat → Bool} :
    ∀ {n j : Nat}, j ≤ n → p j = true → (∀ k, j < k → k ≤ n → p k = false) →
      scanBack p n = some j := by
  intro n
  induction n with
  | zero =>
    intro j h1 h2 _
    obtain rfl : j = 0 := by omega
    rw [scanBack, if_pos h2]
  | succ n ih =>
    intro j h1 h2 h3
    rcases Nat.eq_or_lt_of_le h1 with rfl | hlt
    · rw [scanBack, if_pos h2]
    · rw [scanBack, if_neg (by simp [h3 (n + 1) (by omega) (Nat.le_refl _)])]
      exact ih (by omega) h2 fun k hk1 hk2 => h3 k hk1 (by omega)

theorem scanBackInt_neg {p : Nat → Bool} {start : Int} (h : start < 0) :
    scanBackInt p start = none := by
  rw [scanBackInt, if_pos h]

theorem scanBackInt_nonneg {p : Nat → Bool} {start : Int} (h : 0 ≤ start) :
    scanBackInt p start = scanBack p start.toNat := by
  rw [scanBackInt, if_neg (by omega)]

theorem scanBackInt_natCast (p : Nat → Bool) (n : Nat) :
    scanBackInt p ((n : Nat) : Int) = scanBack p n := by
  have h : ((n : Nat) : Int).toNat = n := by omega
  rw [scanBackInt_nonneg (by omega), h]

theorem scanBackInt_some {p : Nat → Bool} {start : Int} {j : Nat}
    (h : scanBackInt p start = some j) :
    0 ≤ start ∧ (j : Int) ≤ start ∧ p j = true ∧
      ∀ k, j < k → (k : Int) ≤ start → p k = false := by
  rw [scanBackInt] at h
  by_cases hs : start < 0
  · rw [if_pos hs] at h
    exact absurd h (by simp)
  · rw [if_neg hs] at h
    obtain ⟨h1, h2, h3⟩ := scanBack_some h
    refine ⟨by omega, by omega, h2, fun k hk1 hk2 => h3 k hk1 (by omega)⟩

/-! ## Trimming commutes with lower-casing, and is idempotent -/

theorem toNat_ofNat_valid {n : Nat} (h : n.isValidChar) : (Char.ofNat n).toNat = n := by
  simp only [Char.ofNat]
  rw [dif_pos h]
  rfl

theorem isWhitespace_eq_false {c : Char} (h : 64 < c.toNat) : c.isWhitespace = false := by
  have h1 : c ≠ ' ' := fun e => absurd (e ▸ h) (by decide)
  have h2 : c ≠ '\t' := fun e => absurd (e ▸ h) (by decide)
  have h3 : c ≠ '\r' := fun e => absurd (e ▸ h) (by decide)
  have h4 : c ≠ '\n' := fun e => absurd (e ▸ h) (by decide)
  simp [Char.isWhitespace, h1, h2, h3, h4]

theorem isWhitespace_toLower (c : Char) :
    (Char.toLower c).isWhitespace = c.isWhitespace := by
  unfold Char.toLower
  dsimp only
  by_cases h : c.toNat ≥ 65 ∧ c.toNat ≤ 90
  · obtain ⟨h1, h2⟩ := h
    rw [if_pos ⟨h1, h2⟩]
    have hval : (Char.toNat c + 32).isValidChar := Or.inl (by omega)
    rw [isWhitespace_eq_false (c := Char.ofNat (Char.toNat c + 32))
      (by rw [toNat_ofNat_valid hval]; omega)]
    rw [isWhitespace_eq_false (by omega)]
  · rw [if_neg h]

theorem dropWhile_map_toLower (l : List Char) :
    (l.map Char.toLower).dropWhile Char.isWhitespace =
      (l.dropWhile Char.isWhitespace).map Char.toLower := by
  induction l with
  | nil => rfl
  | cons a t ih =>
    simp only [List.map_cons, List.dropWhile_cons, isWhitespace_toLower]
    by_cases h : a.isWhitespace = true
    · simp [h, ih]
    · simp only [Bool.not_eq_true] at h
      simp [h]

theorem trimChars_map_toLower (l : List Char) :
    trimChars (l.map Char.toLower) = (trimChars l).map Char.toLower := by
  simp only [trimChars, List.rdropWhile, dropWhile_map_toLower, ← List.map_reverse]

theorem dropWhile_eq_self_of_parts {q : Char → Bool} {u t l : List Char}
    (hl : l.dropWhile q = l) (he : l = u ++ t) : u.dropWhile q = u := by
  cases u with
  | nil => rfl
  | cons a as =>
    subst he
    rw [List.cons_append] at hl
    by_cases h : q a = true
    · rw [List.dropWhile_cons_of_pos h] at hl
      obtain ⟨w, hw⟩ := List.dropWhile_suffix (l := as ++ t) q
      rw [hl] at hw
      have := congrArg List.length hw
      simp at this
      omega
    · rw [List.dropWhile_cons_of_neg h]

theorem trimChars_idem (l : List Char) : trimChars (trimChars l) = trimChars l := by
  have hxx : (l.dropWhile Char.isWhitespace).dropWhile Char.isWhitespace =
      l.dropWhile Char.isWhitespace := List.dropWhile_idempotent _ _
  obtain ⟨t, ht⟩ :=
    List.dropWhile_suffix (l := (l.dropWhile Char.isWhitespace).reverse) Char.isWhitespace
  have hx2 : l.dropWhile Char.isWhitespace =
      List.rdropWhile Char.isWhitespace (l.dropWhile Char.isWhitespace) ++ t.reverse := by
    conv_lhs => rw [← List.reverse_reverse (l.dropWhile Char.isWhitespace), ← ht]
    rw [List.reverse_append, List.rdropWhile]
  have h1 := dropWhile_eq_self_of_parts hxx hx2
  show trimChars (List.rdropWhile Char.isWhitespace (l.dropWhile Char.isWhitespace)) = _
  rw [trimChars, h1, List.rdropWhile_idempotent]
  rfl

theorem toList_mk (l : List Char) : (String.mk l).toList = l := rfl

theorem jsTrim_idem (s : String) : jsTrim (jsTrim s) = jsTrim s := by
  simp only [jsTrim, toList_mk, trimChars_idem]

theorem jsTrim_toLower_comm (s : String) :
    jsTrim (jsToLower s) = jsToLower (jsTrim s) := by
  simp only [jsTrim, jsToLower, toList_mk, trimChars_map_toLower]

theorem searchKey_trim (t : String) : searchKey (jsTrim t) = searchKey t := by
  unfold searchKey
  rw [jsTrim_toLower_comm, jsTrim_idem, ← jsTrim_toLower_comm]

theorem searchKey_of_trimmed {t : String} (h : jsTrim t = t) :
    searchKey t = jsToLower t := by
  unfold searchKey
  rw [jsTrim_toLower_comm, h]

theorem lineHasTerm_trim (t line : String) :
    lineHasTerm (jsTrim t) line = lineHasTerm t line := by
  unfold lineHasTerm
  rw [searchKey_trim]

theorem lineHasTerm_of_trimmed {t : String} (h : jsTrim t = t) (line : String) :
    lineHasTerm t line = strContains (jsToLower line) (jsToLower t) := by
  unfold lineHasTerm
  rw [searchKey_of_trimmed h]

theorem lineHasTerm_eq_claimMatch {t : String} (h : jsTrim t = t) (line : String) :
    lineHasTerm t line = claimMatch t line :=
  lineHasTerm_of_trimmed h line

/-! ## Characterizations of the three navigation operations -/

theorem searchLiterature_eq (s : NavState) (content : String) (f : Nat)
    (hdoc : s.document = some content) (hne : content ≠ "")
    (ht : jsTrim s.searchTerm ≠ "") :
    searchLiterature s f =
      match scanForward (fun k => lineHasTerm s.searchTerm ((docLines content).getD k ""))
          (docLines content).length f with
      | none => (.error .NotFound, s)
      | some i =>
        (.ok i, { s with foundLine := some (i + 1),
                         displayContent :=
                           some (windowText (docLines content) i (pageSizeNat s)) }) := by
  unfold searchLiterature
  rw [hdoc]
  dsimp only
  rw [if_neg hne, if_neg ht]

theorem findPrevLiterature_eq (s : NavState) (content : String)
    (hdoc : s.document = some content) (hne : content ≠ "")
    (ht : jsTrim s.searchTerm ≠ "") :
    findPrevLiterature s =
      match scanBackInt (fun k => lineHasTerm s.searchTerm ((docLines content).getD k ""))
          (match s.foundLine with
           | none => ((docLines content).length : Int) - 1
           | some fl =>
             if fl = 0 then ((docLines content).length : Int) - 1 else (fl : Int) - 2) with
      | none => (.error .NotFound, s)
      | some i =>
        (.ok i, { s with foundLine := some (i + 1),
                         displayContent :=
                           some (windowText (docLines content) i (pageSizeNat s)) }) := by
  unfold findPrevLiterature
  rw [hdoc]
  dsimp only
  rw [if_neg hne, if_neg ht]

theorem nextLines_spec (s : NavState) (content : String) (fl : Nat)
    (hdoc : s.document = some content) (hne : content ≠ "")
    (hfl : s.foundLine = some fl) (hfl0 : fl ≠ 0) :
    ((fl - 1) + pageSizeNat s ≥ (docLines content).length →
        nextLinesLiterature s = (.error .EndOfText, s)) ∧
    ((fl - 1) + pageSizeNat s < (docLines content).length →
        nextLinesLiterature s = (.ok ((fl - 1) + pageSizeNat s),
          { s with foundLine := some ((fl - 1) + pageSizeNat s + 1),
                   displayContent := some (windowText (docLines content)
                     ((fl - 1) + pageSizeNat s) (pageSizeNat s)) })) := by
  unfold nextLinesLiterature
  rw [hdoc]
  dsimp only
  rw [if_neg hne, hfl]
  dsimp only
  rw [if_neg hfl0]
  constructor
  · intro h
    rw [if_pos h]
  · intro h
    rw [if_neg (by omega)]

theorem search_cases (s : NavState) (f : Nat) :
    (∃ e, searchLiterature s f = (.error e, s)) ∨
    ∃ content i, s.document = some content ∧ content ≠ "" ∧ jsTrim s.searchTerm ≠ "" ∧
      scanForward (fun k => lineHasTerm s.searchTerm ((docLines content).getD k ""))
        (docLines content).length f = some i ∧
      searchLiterature s f = (.ok i,
        { s with foundLine := some (i + 1),
                 displayContent := some (windowText (docLines content) i (pageSizeNat s)) }) := by
  cases hdoc : s.document with
  | none => exact .inl ⟨.NoDocument, by unfold searchLiterature; rw [hdoc]⟩
  | some content =>
    by_cases hne : content = ""
    · exact .inl ⟨.NoDocument, by
        unfold searchLiterature
        rw [hdoc]
        dsimp only
        rw [if_pos hne]⟩
    · by_cases ht : jsTrim s.searchTerm = ""
      · exact .inl ⟨.EmptyTerm, by
          unfold searchLiterature
          rw [hdoc]
          dsimp only
          rw [if_neg hne, if_pos ht]⟩
      · have heq := searchLiterature_eq s content f hdoc hne ht
        cases hscan : scanForward (fun k => lineHasTerm s.searchTerm
            ((docLines content).getD k "")) (docLines content).length f with
        | none => exact .inl ⟨.NotFound, by rw [heq, hscan]⟩
        | some i =>
          refine .inr ⟨content, i, rfl, hne, ht, hscan, ?_⟩
          rw [heq, hscan, hdoc]

theorem findPrev_cases (s : NavState) :
    (∃ e, findPrevLiterature s = (.error e, s)) ∨
    ∃ content i, s.document = some content ∧ content ≠ "" ∧ jsTrim s.searchTerm ≠ "" ∧
      scanBackInt (fun k => lineHasTerm s.searchTerm ((docLines content).getD k ""))
        (match s.foundLine with
         | none => ((docLines content).length : Int) - 1
         | some fl =>
           if fl = 0 then ((docLines content).length : Int) - 1 else (fl : Int) - 2) = some i ∧
      findPrevLiterature s = (.ok i,
        { s with foundLine := some (i + 1),
                 displayContent := some (windowText (docLines content) i (pageSizeNat s)) }) := by
  cases hdoc : s.document with
  | none => exact .inl ⟨.NoDocument, by unfold findPrevLiterature; rw [hdoc]⟩
  | some content =>
    by_cases hne : content = ""
    · exact .inl ⟨.NoDocument, by
        unfold findPrevLiterature
        rw [hdoc]
        dsimp only
        rw [if_pos hne]⟩
    · by_cases ht : jsTrim s.searchTerm = ""
      · exact .inl ⟨.EmptyTerm, by
          unfold findPrevLiterature
          rw [hdoc]
          dsimp only
          rw [if_neg hne, if_pos ht]⟩
      · have heq := findPrevLiterature_eq s content hdoc hne ht
        cases hscan : scanBackInt (fun k => lineHasTerm s.searchTerm
            ((docLines content).getD k ""))
            (match s.foundLine with
             | none => ((docLines content).length : Int) - 1
             | some fl =>
               if fl = 0 then ((docLines content).length : Int) - 1
               else (fl : Int) - 2) with
        | none => exact .inl ⟨.NotFound, by rw [heq, hscan]⟩
        | some i =>
          refine .inr ⟨content, i, rfl, hne, ht, hscan, ?_⟩
          rw [heq, hscan, hdoc]

theorem nextLines_cases (s : NavState) :
    (∃ e, nextLinesLiterature s = (.error e, s)) ∨
    ∃ content fl, s.document = some content ∧ content ≠ "" ∧ s.foundLine = some fl ∧
      fl ≠ 0 ∧ (fl - 1) + pageSizeNat s < (docLines content).length ∧
      nextLinesLiterature s = (.ok ((fl - 1) + pageSizeNat s),
        { s with foundLine := some ((fl - 1) + pageSizeNat s + 1),
                 displayContent := some (windowText (docLines content)
                     ((fl - 1) + pageSizeNat s) (pageSizeNat s)) }) := by
  cases hdoc : s.document with
  | none => exact .inl ⟨.NoDocument, by unfold nextLinesLiterature; rw [hdoc]⟩
  | some content =>
    by_cases hne : content = ""
    · exact .inl ⟨.NoDocument, by
        unfold nextLinesLiterature
        rw [hdoc]
        dsimp only
        rw [if_pos hne]⟩
    · cases hfl : s.foundLine with
      | none => exact .inl ⟨.NoCursor, by
          unfold nextLinesLiterature
          rw [hdoc]
          dsimp only
          rw [if_neg hne, hfl]⟩
      | some fl =>
        by_cases hfl0 : fl = 0
        · exact .inl ⟨.NoCursor, by
            unfold nextLinesLiterature
            rw [hdoc]
            dsimp only
            rw [if_neg hne, hfl]
            dsimp only
            rw [if_pos hfl0]⟩
        · have hsp := nextLines_spec s content fl hdoc hne hfl hfl0
          by_cases hend : (fl - 1) + pageSizeNat s ≥ (docLines content).length
          · exact .inl ⟨.EndOfText, hsp.1 hend⟩
          · refine .inr ⟨content, fl, rfl, hne, rfl, hfl0, by omega, ?_⟩
            have h2 := hsp.2 (by omega)
            rw [hdoc] at h2
            exact h2

theorem findNext_delegates (s : NavState) :
    ∃ f, findNextLiterature s = searchLiterature s f := by
  unfold findNextLiterature
  cases hfl : s.foundLine with
  | none => exact ⟨0, rfl⟩
  | some fl =>
    dsimp only
    by_cases h0 : fl = 0
    · rw [if_pos h0]; exact ⟨0, rfl⟩
    · rw [if_neg h0]; exact ⟨fl, rfl⟩

/-- Any failing forward search leaves the state untouched. -/
theorem searchLiterature_frozen {s : NavState} {f : Nat} {e : NavError}
    (h : (searchLiterature s f).1 = .error e) : (searchLiterature s f).2 = s := by
  rcases search_cases s f with ⟨e', he⟩ | ⟨c, i, _, _, _, _, heq⟩
  · rw [he]
  · rw [heq] at h
    exact absurd h (by simp)

/-- Any failing backward search leaves the state untouched. -/
theorem findPrev_frozen {s : NavState} {e : NavError}
    (h : (findPrevLiterature s).1 = .error e) : (findPrevLiterature s).2 = s := by
  rcases findPrev_cases s with ⟨e', he⟩ | ⟨c, i, _, _, _, _, heq⟩
  · rw [he]
  · rw [heq] at h
    exact absurd h (by simp)

/-- Any failing pagination leaves the state untouched. -/
theorem nextLines_frozen {s : NavState} {e : NavError}
    (h : (nextLinesLiterature s).1 = .error e) : (nextLinesLiterature s).2 = s := by
  rcases nextLines_cases s with ⟨e', he⟩ | ⟨c, fl, _, _, _, _, _, heq⟩
  · rw [he]
  · rw [heq] at h
    exact absurd h (by simp)

/-! ## Page size bounds and state preservation -/

theorem pageSizeNat_pos (s : NavState) : 1 ≤ pageSizeNat s := by
  unfold pageSizeNat
  have h1 : (1 : Int) ≤ max 1 (min 5000 s.numLines) := le_max_left _ _
  omega

theorem pageSizeNat_le (s : NavState) : pageSizeNat s ≤ 5000 := by
  unfold pageSizeNat
  have h2 : min 5000 s.numLines ≤ (5000 : Int) := min_le_left _ _
  have h3 : max 1 (min 5000 s.numLines) ≤ (5000 : Int) := max_le (by norm_num) h2
  omega

theorem nextStep_fields (s : NavState) :
    (nextStep s).document = s.document ∧ (nextStep s).searchTerm = s.searchTerm ∧
      (nextStep s).numLines = s.numLines := by
  unfold nextStep
  rcases nextLines_cases s with ⟨e, he⟩ | ⟨c, fl, hdoc, hne, hfl, h0, hlt, heq⟩
  · rw [he]
    exact ⟨rfl, rfl, rfl⟩
  · rw [heq]
    exact ⟨rfl, rfl, rfl⟩

theorem pageSizeNat_nextStep (s : NavState) : pageSizeNat (nextStep s) = pageSizeNat s := by
  unfold pageSizeNat
  rw [(nextStep_fields s).2.2]

/-! ## Preservation of the cursor invariant -/

theorem cursorOk_search (s : NavState) (f : Nat) (h : cursorOk s = true) :
    cursorOk ((searchLiterature s f).2) = true := by
  rcases search_cases s f with ⟨e, he⟩ | ⟨c, i, hdoc, hne, ht, hscan, heq⟩
  · rw [he]
    exact h
  · rw [heq]
    unfold cursorOk
    dsimp only
    rw [hdoc]
    dsimp only
    rw [if_neg (by omega)]
    simpa using (scanForward_some hscan).2.1

theorem cursorOk_findPrev (s : NavState) (h : cursorOk s = true) :
    cursorOk ((findPrevLiterature s).2) = true := by
  rcases findPrev_cases s with ⟨e, he⟩ | ⟨c, i, hdoc, hne, ht, hscan, heq⟩
  · rw [he]
    exact h
  · obtain ⟨hge, hle, hpi, hmax⟩ := scanBackInt_some hscan
    have hi : i < (docLines c).length := by
      rcases hfl : s.foundLine with _ | fl
      · simp only [hfl] at hle hge
        omega
      · simp only [hfl] at hle hge
        by_cases h0 : fl = 0
        · rw [if_pos h0] at hle hge
          omega
        · rw [if_neg h0] at hle hge
          have hfl2 : fl - 1 < (docLines c).length := by
            unfold cursorOk at h
            rw [hdoc, hfl] at h
            dsimp only at h
            rw [if_neg h0] at h
            exact of_decide_eq_true h
          omega
    rw [heq]
    unfold cursorOk
    dsimp only
    rw [hdoc]
    dsimp only
    rw [if_neg (by omega)]
    simpa using hi

theorem cursorOk_nextLines (s : NavState) (h : cursorOk s = true) :
    cursorOk ((nextLinesLiterature s).2) = true := by
  rcases nextLines_cases s with ⟨e, he⟩ | ⟨c, fl, hdoc, hne, hfl, h0, hlt, heq⟩
  · rw [he]
    exact h
  · rw [heq]
    unfold cursorOk
    dsimp only
    rw [hdoc]
    dsimp only
    rw [if_neg (by omega)]
    simpa using hlt

theorem cursorOk_findNext (s : NavState) (h : cursorOk s = true) :
    cursorOk ((findNextLiterature s).2) = true := by
  obtain ⟨f, hf⟩ := findNext_delegates s
  rw [hf]
  exact cursorOk_search s f h

theorem cursorOk_navStep (op : NavOp) (s : NavState) (h : cursorOk s = true) :
    cursorOk (navStep op s) = true := by
  cases op with
  | load t =>
    show cursorOk (loadDocument s t) = true
    rfl
  | setTerm t => exact h
  | setSize n => exact h
  | searchFwd f => exact cursorOk_search s f h
  | findNext => exact cursorOk_findNext s h
  | searchBack => exact cursorOk_findPrev s h
  | nextPage => exact cursorOk_nextLines s h

theorem cursorOk_navRun (ops : List NavOp) (s : NavState) (h : cursorOk s = true) :
    cursorOk (navRun ops s) = true := by
  induction ops generalizing s with
  | nil => exact h
  | cons op rest ih => exact ih (navStep op s) (cursorOk_navStep op s h)

/-! ## Iterated pagination -/

theorem nextStep_iter (s : NavState) (content : String) (c : Nat)
    (hdoc : s.document = some content) (hne : content ≠ "")
    (hfl : s.foundLine = some (c + 1)) :
    ∀ n, c + n * pageSizeNat s < (docLines content).length →
      (nextStep^[n] s).foundLine = some (c + n * pageSizeNat s + 1) ∧
      (nextStep^[n] s).document = some content ∧
      pageSizeNat (nextStep^[n] s) = pageSizeNat s := by
  intro n
  induction n with
  | zero =>
    intro _
    simpa using ⟨hfl, hdoc⟩
  | succ n ih =>
    intro h
    have hpos := pageSizeNat_pos s
    rw [Nat.succ_mul] at h
    obtain ⟨h1, h2, h3⟩ := ih (by omega)
    rw [Function.iterate_succ_apply']
    have hsp := nextLines_spec (nextStep^[n] s) content (c + n * pageSizeNat s + 1) h2 hne h1
      (by omega)
    rw [Nat.add_sub_cancel, h3] at hsp
    have hsucc := hsp.2 (by omega)
    rw [show nextStep (nextStep^[n] s) = (nextLinesLiterature (nextStep^[n] s)).2 from rfl,
      hsucc]
    refine ⟨?_, h2, h3⟩
    dsimp only
    rw [Nat.succ_mul, ← Nat.add_assoc]

/-! ## The claims -/

/-- C1: for every loaded document, non-empty search term and start index
`fromLine`, the forward search scans lines in ascending order from
`fromLine` inclusive; if some line at index `i ≥ fromLine` has a lowercase
form containing the lowercase term then it succeeds with the smallest such
`i`: the anchor (`foundLine`, the reported 1-based line number) becomes
`i + 1` — i.e. the 0-based cursor becomes `i` — and the stored display
window starts at line `i`; if no such line exists it fails with `NotFound`.
(The term is quantified in trimmed form, `jsTrim s.searchTerm =
s.searchTerm`; see C10 for terms with surrounding whitespace.) -/
theorem searchForward_finds_first (s : NavState) (content : String) (fromLine : Nat)
    (hdoc : s.document = some content) (hne : content ≠ "")
    (htrim : jsTrim s.searchTerm = s.searchTerm) (hterm : s.searchTerm ≠ "") :
    ((∀ k, fromLine ≤ k → k < (docLines content).length →
        claimMatch s.searchTerm ((docLines content).getD k "") = false) →
      searchLiterature s fromLine = (.error .NotFound, s)) ∧
    (∀ i, fromLine ≤ i → i < (docLines content).length →
      claimMatch s.searchTerm ((docLines content).getD i "") = true →
      (∀ k, fromLine ≤ k → k < i →
        claimMatch s.searchTerm ((docLines content).getD k "") = false) →
      searchLiterature s fromLine = (.ok i,
        { s with foundLine := some (i + 1),
                 displayContent :=
                   some (windowText (docLines content) i (pageSizeNat s)) })) := by
  have ht : jsTrim s.searchTerm ≠ "" := by rw [htrim]; exact hterm
  have heq := searchLiterature_eq s content fromLine hdoc hne ht
  constructor
  · intro hnone
    rw [heq, scanForward_eq_none (fun k hk1 hk2 => by
      rw [lineHasTerm_eq_claimMatch htrim]
      exact hnone k hk1 hk2)]
  · intro i hi1 hi2 hm hmin
    rw [heq, scanForward_eq_some hi1 hi2
      (by rw [lineHasTerm_eq_claimMatch htrim]; exact hm)
      (fun k hk1 hk2 => by
        rw [lineHasTerm_eq_claimMatch htrim]
        exact hmin k hk1 hk2)]

/-- Witness for C1 at the sample document of the spec: `searchForward("beta")`
from line 0 finds index 1 and anchors the two-line window there. -/
theorem searchForward_finds_first_witness :
    searchLiterature stSample 0 = (.ok 1,
      { stSample with foundLine := some (1 + 1),
                      displayContent :=
                        some (windowText (docLines "alpha\nbeta\ngamma\nbeta again") 1
                          (pageSizeNat stSample)) }) :=
  (searchForward_finds_first stSample "alpha\nbeta\ngamma\nbeta again" 0 rfl (by decide)
      (by decide) (by decide)).2 1 (by decide) (by decide) (by decide)
    (fun k _ hk2 => by
      have hk : k = 0 := by omega
      subst hk
      decide)

/-- C2: for every loaded document and non-empty term, the backward
search starts at index `cursor - 1` when the cursor is set (the stored
`foundLine` is `cursor + 1`) and at the last line when it is unset, scans
downward to index 0 inclusive, and succeeds with the highest-index match in
that range; when the start index is negative (cursor at line 0, i.e.
`foundLine = 1`) the range is empty and it immediately fails with
`NotFound`.  (Term quantified in trimmed form, as in C1.) -/
theorem searchBackward_scan (s : NavState) (content : String)
    (hdoc : s.document = some content) (hne : content ≠ "")
    (htrim : jsTrim s.searchTerm = s.searchTerm) (hterm : s.searchTerm ≠ "") :
    (∀ c, s.foundLine = some (c + 1) →
      ((∀ k, k < c → claimMatch s.searchTerm ((docLines content).getD k "") = false) →
        findPrevLiterature s = (.error .NotFound, s)) ∧
      (∀ j, j < c → claimMatch s.searchTerm ((docLines content).getD j "") = true →
        (∀ k, j < k → k < c →
          claimMatch s.searchTerm ((docLines content).getD k "") = false) →
        findPrevLiterature s = (.ok j,
          { s with foundLine := some (j + 1),
                   displayContent :=
                     some (windowText (docLines content) j (pageSizeNat s)) }))) ∧
    (s.foundLine = some 1 → findPrevLiterature s = (.error .NotFound, s)) ∧
    (s.foundLine = none →
      ((∀ k, k < (docLines content).length →
          claimMatch s.searchTerm ((docLines content).getD k "") = false) →
        findPrevLiterature s = (.error .NotFound, s)) ∧
      (∀ j, j < (docLines content).length →
        claimMatch s.searchTerm ((docLines content).getD j "") = true →
        (∀ k, j < k → k < (docLines content).length →
          claimMatch s.searchTerm ((docLines content).getD k "") = false) →
        findPrevLiterature s = (.ok j,
          { s with foundLine := some (j + 1),
                   displayContent :=
                     some (windowText (docLines content) j (pageSizeNat s)) }))) := by
  have ht : jsTrim s.searchTerm ≠ "" := by rw [htrim]; exact hterm
  have hpred : ∀ line, lineHasTerm s.searchTerm line = claimMatch s.searchTerm line :=
    lineHasTerm_eq_claimMatch htrim
  have hA : ∀ c, s.foundLine = some (c + 1) →
      ((∀ k, k < c → claimMatch s.searchTerm ((docLines content).getD k "") = false) →
        findPrevLiterature s = (.error .NotFound, s)) ∧
      (∀ j, j < c → claimMatch s.searchTerm ((docLines content).getD j "") = true →
        (∀ k, j < k → k < c →
          claimMatch s.searchTerm ((docLines content).getD k "") = false) →
        findPrevLiterature s = (.ok j,
          { s with foundLine := some (j + 1),
                   displayContent :=
                     some (windowText (docLines content) j (pageSizeNat s)) })) := by
    intro c hfl
    have heq := findPrevLiterature_eq s content hdoc hne ht
    simp only [hfl] at heq
    rw [if_neg (by omega : ¬ c + 1 = 0)] at heq
    constructor
    · intro hnone
      by_cases hc : c = 0
      · subst hc
        rw [heq, scanBackInt_neg (by omega)]
      · obtain ⟨c', rfl⟩ := Nat.exists_eq_succ_of_ne_zero hc
        have hst : ((c' + 1 + 1 : Nat) : Int) - 2 = ((c' : Nat) : Int) := by push_cast; ring
        rw [heq, hst, scanBackInt_natCast, scanBack_eq_none (fun k hk => by
          rw [hpred]
          exact hnone k (by omega))]
    · intro j hj hm hmax
      obtain ⟨c', rfl⟩ := Nat.exists_eq_succ_of_ne_zero (show c ≠ 0 by omega)
      have hst : ((c' + 1 + 1 : Nat) : Int) - 2 = ((c' : Nat) : Int) := by push_cast; ring
      rw [heq, hst, scanBackInt_natCast, scanBack_eq_some (show j ≤ c' by omega)
        (by rw [hpred]; exact hm)
        (fun k hk1 hk2 => by rw [hpred]; exact hmax k hk1 (by omega))]
  refine ⟨hA, fun hfl => (hA 0 hfl).1 (fun k hk => absurd hk (by omega)), ?_⟩
  intro hfl
  have heq := findPrevLiterature_eq s content hdoc hne ht
  simp only [hfl] at heq
  constructor
  · intro hnone
    cases hlen : (docLines content).length with
    | zero =>
      rw [hlen] at heq
      rw [heq, scanBackInt_neg (by omega)]
    | succ m =>
      have hst : ((m + 1 : Nat) : Int) - 1 = ((m : Nat) : Int) := by push_cast; ring
      rw [hlen] at heq
      rw [heq, hst, scanBackInt_natCast, scanBack_eq_none (fun k hk => by
        rw [hpred]
        exact hnone k (by omega))]
  · intro j hj hm hmax
    cases hlen : (docLines content).length with
    | zero => omega
    | succ m =>
      have hst : ((m + 1 : Nat) : Int) - 1 = ((m : Nat) : Int) := by push_cast; ring
      rw [hlen] at heq
      rw [heq, hst, scanBackInt_natCast, scanBack_eq_some (show j ≤ m by omega)
        (by rw [hpred]; exact hm)
        (fun k hk1 hk2 => by rw [hpred]; exact hmax k hk1 (by omega))]

/-- Witness for C2 at the sample document of the spec with the cursor unset:
the backward scan starts at the last line (index 3) and finds index 3
(`"beta again"`), not index 1. -/
theorem searchBackward_scan_witness :
    findPrevLiterature stSample = (.ok 3,
      { stSample with foundLine := some (3 + 1),
                      displayContent :=
                        some (windowText (docLines "alpha\nbeta\ngamma\nbeta again") 3
                          (pageSizeNat stSample)) }) :=
  ((searchBackward_scan stSample "alpha\nbeta\ngamma\nbeta again" rfl (by decide) (by decide)
      (by decide)).2.2 rfl).2 3 (by decide) (by decide)
    (fun k hk1 hk2 => by
      have hlen : (docLines "alpha\nbeta\ngamma\nbeta again").length = 4 := by decide
      rw [hlen] at hk2
      exact absurd hk2 (by omega))

/-- C3: on a loaded document with the cursor set to `c` (stored
`foundLine = c + 1`), `nextPage` computes `newStart = c + pageSize`.  If
`newStart ≥ len(lines)` it fails with `EndOfText` and leaves the whole
state — in particular the cursor — unchanged; otherwise the anchor becomes
`newStart` (stored as `newStart + 1`, the reported 1-based line number) and
the stored display window starts at `newStart`. -/
theorem nextPage_spec (s : NavState) (content : String) (c : Nat)
    (hdoc : s.document = some content) (hne : content ≠ "")
    (hfl : s.foundLine = some (c + 1)) :
    ((docLines content).length ≤ c + pageSizeNat s →
      nextLinesLiterature s = (.error .EndOfText, s)) ∧
    (c + pageSizeNat s < (docLines content).length →
      nextLinesLiterature s = (.ok (c + pageSizeNat s),
        { s with foundLine := some (c + pageSizeNat s + 1),
                 displayContent :=
                   some (windowText (docLines content) (c + pageSizeNat s)
                     (pageSizeNat s)) })) := by
  have hsp := nextLines_spec s content (c + 1) hdoc hne hfl (by omega)
  rw [Nat.add_sub_cancel] at hsp
  exact ⟨fun h => hsp.1 (by omega), fun h => hsp.2 h⟩

/-- Witness for C3: a three-line document with page size 10 and cursor 2:
`newStart = 12 ≥ 3`, so `nextPage` fails with `EndOfText` and the state is
untouched. -/
theorem nextPage_spec_witness :
    nextLinesLiterature stThree = (.error .EndOfText, stThree) :=
  (nextPage_spec stThree "alpha\nbeta\ngamma" 2 rfl (by decide) rfl).1 (by decide)

/-- C4: every failing operation is atomic — whenever the forward
search, the backward search or the pagination returns any failure, the
resulting `NavState` (document lines, search term, page size, cursor and
displayed content alike) is exactly the state before the call. -/
theorem failures_atomic :
    ∀ (s : NavState) (f : Nat) (e : NavError),
      ((searchLiterature s f).1 = .error e → (searchLiterature s f).2 = s) ∧
      ((findPrevLiterature s).1 = .error e → (findPrevLiterature s).2 = s) ∧
      ((nextLinesLiterature s).1 = .error e → (nextLinesLiterature s).2 = s) :=
  fun _ _ _ =>
    ⟨fun h => searchLiterature_frozen h, fun h => findPrev_frozen h,
      fun h => nextLines_frozen h⟩

/-- Witness for C4: a forward search with no document loaded fails with
`NoDocument` and leaves the initial state unchanged. -/
theorem failures_atomic_witness : (searchLiterature initNav 0).2 = initNav :=
  (failures_atomic initNav 0 .NoDocument).1 rfl

/-- C5: the cursor invariant.  `cursorOk` states that whenever a
document is present and the anchor is set, the 0-based cursor
`foundLine - 1` lies inside the line array.  Every single operation — and
hence every sequence of operations — preserves it, and it holds in the
initial state. -/
theorem cursor_invariant :
    (∀ (op : NavOp) (s : NavState), cursorOk s = true → cursorOk (navStep op s) = true) ∧
    (∀ (ops : List NavOp) (s : NavState),
      cursorOk s = true → cursorOk (navRun ops s) = true) ∧
    cursorOk initNav = true :=
  ⟨cursorOk_navStep, cursorOk_navRun, rfl⟩

/-- Witness for C5: loading a document, setting a term and searching keeps
the invariant. -/
theorem cursor_invariant_witness :
    cursorOk (navRun [.load "a\nb", .setTerm "b", .searchFwd 0] initNav) = true :=
  cursor_invariant.2.1 [.load "a\nb", .setTerm "b", .searchFwd 0] initNav rfl

/-- C6 counterexample: loading the empty string and searching forward
for `"x"` fails with `NoDocument`, not `NotFound` as the claim states — the
presence check `!loadedReports[literatureFile]` treats empty content as
falsy, i.e. as no document at all. -/
theorem emptyDoc_counterexample :
    (searchLiterature (setSearchTerm (loadDocument initNav "") "x") 0).1 =
        .error .NoDocument ∧
      NavError.NoDocument ≠ NavError.NotFound :=
  ⟨rfl, by decide⟩

/-- C6 (amended): loading the empty string as the document and then
searching forward for any term fails with `NoDocument` (and the state is
untouched): the empty string is falsy in JS, so the presence check already
rejects the call before the term or the lines are examined. -/
theorem emptyDoc_search_noDocument (s : NavState) (f : Nat)
    (h : s.document = some "") :
    searchLiterature s f = (.error .NoDocument, s) := by
  unfold searchLiterature
  rw [h]
  dsimp only
  rw [if_pos rfl]

/-- Witness for the amended C6: the concrete scenario
`loadDocument(""); searchForward("x")`. -/
theorem emptyDoc_search_noDocument_witness :
    searchLiterature (setSearchTerm (loadDocument initNav "") "x") 0 =
      (.error .NoDocument, setSearchTerm (loadDocument initNav "") "x") :=
  emptyDoc_search_noDocument (setSearchTerm (loadDocument initNav "") "x") 0 rfl

/-- C7 counterexample: `setPageSize(0)` stores 500 (JS `parseInt(v) ||
500` treats 0 as falsy), not the claimed clamped value 1. -/
theorem setPageSize_zero_counterexample :
    (setPageSize initNav (some 0)).numLines = 500 ∧ (500 : Int) ≠ 1 :=
  ⟨rfl, by decide⟩

/-- C7 (amended): the page-size handler stores the `parseInt` result with
`0` and `NaN` replaced by the default 500, unclamped; the clamp to
`[1, 5000]` is applied when each display window is produced.  Hence after
`setPageSize(0)` the effective page size is 500 (not 1), after
`setPageSize(99999)` the stored value is 99999 and the effective page size
is 5000, and every produced display window contains at most 5000 lines —
more precisely at most the clamped page size. -/
theorem setPageSize_behavior :
    (∀ (s : NavState) (v : Int),
      (setPageSize s (some v)).numLines = if v = 0 then 500 else v) ∧
    (∀ s : NavState, (setPageSize s none).numLines = 500) ∧
    (∀ s : NavState, pageSizeNat (setPageSize s (some 0)) = 500) ∧
    (∀ s : NavState, pageSizeNat (setPageSize s (some 99999)) = 5000) ∧
    (∀ s : NavState, 1 ≤ pageSizeNat s ∧ pageSizeNat s ≤ 5000) ∧
    (∀ (s : NavState) (lines : List String) (start : Nat),
      (windowLines lines start (pageSizeNat s)).length ≤ 5000) :=
  ⟨fun _ _ => rfl, fun _ => rfl, fun _ => rfl, fun _ => rfl,
    fun s => ⟨pageSizeNat_pos s, pageSizeNat_le s⟩,
    fun s _ _ => le_trans (List.length_take_le _ _) (pageSizeNat_le s)⟩

/-- C8 counterexample: on `stPages` (three lines, page size 1, cursor
0), two calls of `nextPage` succeed, reaching cursors 1 and then 2, and the
third call fails with `EndOfText`.  The final successfully *reached* cursor
is therefore 2, and `2 + pageSize < 3` is false — contradicting the
final clause of the claim (the cursor *from which* the last successful call was
made, 1, does satisfy `1 + pageSize < 3`). -/
theorem nextPage_final_counterexample :
    (nextStep^[1] stPages).foundLine = some 2 ∧
    (nextStep^[2] stPages).foundLine = some 3 ∧
    (nextLinesLiterature (nextStep^[2] stPages)).1 = .error .EndOfText ∧
    ¬(2 + pageSizeNat stPages < (docLines "a\nb\nc").length) :=
  ⟨by decide, by decide, rfl, by decide⟩

/-- C8 (amended): starting from a set cursor `c` on a loaded document,
repeated `nextPage` yields strictly increasing cursors, each exactly
`pageSize` apart: after `n` successful steps the stored anchor is
`c + n·pageSize + 1` (cursor `c + n·pageSize`); the `n`-th call succeeds
exactly while `c + (n+1)·pageSize < len(lines)` — so every cursor *from
which* a call succeeds satisfies `cursor + pageSize < len(lines)` — and as
soon as `len(lines) ≤ c + (n+1)·pageSize` the call from cursor
`c + n·pageSize` fails with `EndOfText` and the state stays fixed forever;
the final successfully reached cursor `c + n·pageSize` itself satisfies
`cursor + pageSize ≥ len(lines)`, not `<` as the original claim stated. -/
theorem nextPage_iterated (s : NavState) (content : String) (c : Nat)
    (hdoc : s.document = some content) (hne : content ≠ "")
    (hfl : s.foundLine = some (c + 1)) :
    1 ≤ pageSizeNat s ∧
    (∀ n, c + n * pageSizeNat s < (docLines content).length →
      (nextStep^[n] s).foundLine = some (c + n * pageSizeNat s + 1)) ∧
    (∀ n, c + (n + 1) * pageSizeNat s < (docLines content).length →
      (nextLinesLiterature (nextStep^[n] s)).1 = .ok (c + (n + 1) * pageSizeNat s)) ∧
    (∀ n, c + n * pageSizeNat s < (docLines content).length →
      (docLines content).length ≤ c + (n + 1) * pageSizeNat s →
      (nextLinesLiterature (nextStep^[n] s)).1 = .error .EndOfText ∧
      ∀ m, n ≤ m → nextStep^[m] s = nextStep^[n] s) := by
  refine ⟨pageSizeNat_pos s,
    fun n h => (nextStep_iter s content c hdoc hne hfl n h).1, ?_, ?_⟩
  · intro n h
    have hpos := pageSizeNat_pos s
    rw [Nat.succ_mul] at h
    obtain ⟨h1, h2, h3⟩ := nextStep_iter s content c hdoc hne hfl n (by omega)
    have hsp := nextLines_spec (nextStep^[n] s) content (c + n * pageSizeNat s + 1) h2 hne h1
      (by omega)
    rw [Nat.add_sub_cancel, h3] at hsp
    have hsucc := hsp.2 (by omega)
    rw [hsucc, Nat.succ_mul, ← Nat.add_assoc]
  · intro n h1 h2
    obtain ⟨hfl', hdoc', hp'⟩ := nextStep_iter s content c hdoc hne hfl n h1
    have hsp := nextLines_spec (nextStep^[n] s) content (c + n * pageSizeNat s + 1) hdoc' hne
      hfl' (by omega)
    rw [Nat.add_sub_cancel, hp'] at hsp
    rw [Nat.succ_mul] at h2
    have herr := hsp.1 (by omega)
    have hfix : nextStep (nextStep^[n] s) = nextStep^[n] s := by
      show (nextLinesLiterature (nextStep^[n] s)).2 = _
      rw [herr]
    refine ⟨by rw [herr], ?_⟩
    intro m hm
    obtain ⟨d, rfl⟩ : ∃ d, m = n + d := ⟨m - n, by omega⟩
    clear hm
    induction d with
    | zero => rfl
    | succ d ihd =>
      rw [show n + (d + 1) = (n + d) + 1 from rfl, Function.iterate_succ_apply', ihd, hfix]

/-- Witness for the amended C8: on `stPages`, after two steps the anchor is
at line index 2 (stored as 3), and the next call fails with `EndOfText`
while the state stays fixed. -/
theorem nextPage_iterated_witness :
    (nextStep^[2] stPages).foundLine = some (0 + 2 * pageSizeNat stPages + 1) ∧
    (nextLinesLiterature (nextStep^[2] stPages)).1 = .error .EndOfText ∧
    nextStep^[3] stPages = nextStep^[2] stPages := by
  have h := nextPage_iterated stPages "a\nb\nc" 0 rfl (by decide) rfl
  exact ⟨h.2.1 2 (by decide),
    (h.2.2.2 2 (by decide) (by decide)).1,
    (h.2.2.2 2 (by decide) (by decide)).2 3 (by omega)⟩

/-- If no line strictly below the anchor matches, the backward search from
any state anchored at `foundLine = j + 1` (same document and term) fails. -/
theorem findPrev_below_anchor_none (s : NavState) (content : String) (j : Nat)
    (hne : content ≠ "") (ht : jsTrim s.searchTerm ≠ "")
    (hmin : ∀ k, k < j → lineHasTerm s.searchTerm ((docLines content).getD k "") = false)
    (u : NavState) (hud : u.document = some content) (hut : u.searchTerm = s.searchTerm)
    (huf : u.foundLine = some (j + 1)) :
    (findPrevLiterature u).1 = .error .NotFound := by
  have heq2 := findPrevLiterature_eq u content hud hne (by rw [hut]; exact ht)
  simp only [huf] at heq2
  rw [if_neg (by omega : ¬ j + 1 = 0)] at heq2
  by_cases hj : j = 0
  · subst hj
    rw [heq2, scanBackInt_neg (by omega)]
  · obtain ⟨j', rfl⟩ := Nat.exists_eq_succ_of_ne_zero hj
    have hst : ((j' + 1 + 1 : Nat) : Int) - 2 = ((j' : Nat) : Int) := by push_cast; ring
    rw [heq2, hst, scanBackInt_natCast, scanBack_eq_none (fun k hk => by
      rw [hut]
      exact hmin k (by omega))]

/-- C9: a successful forward search from line 0 (which by construction
lands on the first occurrence in the whole document) followed immediately
by a backward search fails with `NotFound`: no line with index smaller
than the new cursor contains the term. -/
theorem forward_then_backward (s : NavState) (i : Nat)
    (h : (searchLiterature s 0).1 = .ok i) :
    (findPrevLiterature ((searchLiterature s 0).2)).1 = .error .NotFound := by
  rcases search_cases s 0 with ⟨e, he⟩ | ⟨content, j, hdoc, hne, ht, hscan, heq⟩
  · rw [he] at h
    exact absurd h (by simp)
  · rw [heq]
    exact findPrev_below_anchor_none s content j hne ht
      (fun k hk => (scanForward_some hscan).2.2.2 k (by omega) hk)
      _ hdoc rfl rfl

/-- Witness for C9 at the sample document of the spec: forward search for
`"beta"` anchors at index 1; the backward search from there fails. -/
theorem forward_then_backward_witness :
    (findPrevLiterature ((searchLiterature stSample 0).2)).1 = .error .NotFound :=
  forward_then_backward stSample 1 rfl

/-- The forward search behaves on term `t` exactly as on `trim(t)`: same
result, and the same state up to the (unsearched) stored raw term. -/
theorem search_trim_equiv (s : NavState) (f : Nat) :
    (searchLiterature s f).1 = (searchLiterature (setSearchTerm s (jsTrim s.searchTerm)) f).1 ∧
    (searchLiterature s f).2 =
      { (searchLiterature (setSearchTerm s (jsTrim s.searchTerm)) f).2 with
        searchTerm := s.searchTerm } := by
  unfold searchLiterature setSearchTerm pageSizeNat
  dsimp only
  simp only [jsTrim_idem, lineHasTerm_trim]
  cases hdoc : s.document with
  | none =>
    dsimp only
    exact ⟨by trivial, by rw [← hdoc]⟩
  | some content =>
    dsimp only
    by_cases hne : content = ""
    · simp only [if_pos hne]
      exact ⟨by trivial, by rw [← hdoc]⟩
    · simp only [if_neg hne]
      by_cases ht : jsTrim s.searchTerm = ""
      · simp only [if_pos ht]
        exact ⟨by trivial, by rw [← hdoc]⟩
      · simp only [if_neg ht]
        cases hscan : scanForward (fun k => lineHasTerm s.searchTerm
            ((docLines content).getD k "")) (docLines content).length f with
        | none =>
          dsimp only
          exact ⟨by trivial, by rw [← hdoc]⟩
        | some i =>
          dsimp only
          exact ⟨by trivial, by rw [← hdoc]⟩

/-- The backward search behaves on term `t` exactly as on `trim(t)`. -/
theorem findPrev_trim_equiv (s : NavState) :
    (findPrevLiterature s).1 = (findPrevLiterature (setSearchTerm s (jsTrim s.searchTerm))).1 ∧
    (findPrevLiterature s).2 =
      { (findPrevLiterature (setSearchTerm s (jsTrim s.searchTerm))).2 with
        searchTerm := s.searchTerm } := by
  unfold findPrevLiterature setSearchTerm pageSizeNat
  dsimp only
  simp only [jsTrim_idem, lineHasTerm_trim]
  cases hdoc : s.document with
  | none =>
    dsimp only
    exact ⟨by trivial, by rw [← hdoc]⟩
  | some content =>
    dsimp only
    by_cases hne : content = ""
    · simp only [if_pos hne]
      exact ⟨by trivial, by rw [← hdoc]⟩
    · simp only [if_neg hne]
      by_cases ht : jsTrim s.searchTerm = ""
      · simp only [if_pos ht]
        exact ⟨by trivial, by rw [← hdoc]⟩
      · simp only [if_neg ht]
        cases hscan : scanBackInt (fun k => lineHasTerm s.searchTerm
            ((docLines content).getD k ""))
            (match s.foundLine with
             | none => ((docLines content).length : Int) - 1
             | some fl =>
               if fl = 0 then ((docLines content).length : Int) - 1
               else (fl : Int) - 2) with
        | none =>
          dsimp only
          exact ⟨by trivial, by rw [← hdoc]⟩
        | some i =>
          dsimp only
          exact ⟨by trivial, by rw [← hdoc]⟩

/-- With a loaded document but a term that is blank after trimming, the
forward search fails with `EmptyTerm`. -/
theorem search_empty_term (s : NavState) (f : Nat) (content : String)
    (hdoc : s.document = some content) (hne : content ≠ "")
    (ht : jsTrim s.searchTerm = "") :
    searchLiterature s f = (.error .EmptyTerm, s) := by
  unfold searchLiterature
  rw [hdoc]
  dsimp only
  rw [if_neg hne, if_pos ht]

/-- With a loaded document but a term that is blank after trimming, the
backward search fails with `EmptyTerm`. -/
theorem findPrev_empty_term (s : NavState) (content : String)
    (hdoc : s.document = some content) (hne : content ≠ "")
    (ht : jsTrim s.searchTerm = "") :
    findPrevLiterature s = (.error .EmptyTerm, s) := by
  unfold findPrevLiterature
  rw [hdoc]
  dsimp only
  rw [if_neg hne, if_pos ht]

/-- C10 (implicit): the search term is trimmed before both the
emptiness check and the matching, so the two searches behave identically
on `t` and on `trim(t)` (same result; same resulting state apart from the
raw stored term, which the operations never modify), and on a loaded
document a whitespace-only term is rejected with `EmptyTerm` rather than
searched for. -/
theorem term_trimming (s : NavState) (f : Nat) :
    ((searchLiterature s f).1 = (searchLiterature (setSearchTerm s (jsTrim s.searchTerm)) f).1 ∧
     (searchLiterature s f).2 =
       { (searchLiterature (setSearchTerm s (jsTrim s.searchTerm)) f).2 with
         searchTerm := s.searchTerm } ∧
     (findPrevLiterature s).1 = (findPrevLiterature (setSearchTerm s (jsTrim s.searchTerm))).1 ∧
     (findPrevLiterature s).2 =
       { (findPrevLiterature (setSearchTerm s (jsTrim s.searchTerm))).2 with
         searchTerm := s.searchTerm }) ∧
    (∀ content, s.document = some content → content ≠ "" → jsTrim s.searchTerm = "" →
      searchLiterature s f = (.error .EmptyTerm, s) ∧
      findPrevLiterature s = (.error .EmptyTerm, s)) :=
  ⟨⟨(search_trim_equiv s f).1, (search_trim_equiv s f).2,
    (findPrev_trim_equiv s).1, (findPrev_trim_equiv s).2⟩,
    fun content hdoc hne ht =>
      ⟨search_empty_term s f content hdoc hne ht, findPrev_empty_term s content hdoc hne ht⟩⟩

/-- Witness for C10: on a loaded two-line document with the whitespace-only
term `"  "`, both searches fail with `EmptyTerm`. -/
theorem term_trimming_witness :
    searchLiterature stBlankTerm 0 = (.error .EmptyTerm, stBlankTerm) ∧
    findPrevLiterature stBlankTerm = (.error .EmptyTerm, stBlankTerm) :=
  (term_trimming stBlankTerm 0).2 "a\nb" rfl (by decide) (by decide)

end LitNav
